import Mathlib

/-!
Verification of the admindemo audio recorder and waveform viewer.

The development shallowly embeds the two core source units:

* `src/libs/AudioRecorder.js` — the chunked sample store (`buffers`), the
  lazily materialized flat `clip`, and the operations `record`
  (its `onaudioprocess` callback, modelled as `push`), `clear`, `createClip`
  and `getBuffer`.
* `src/components/WaveViewer.vue` — the viewport and selection state
  (`scale`, `end`, `bufLen`, `selection`, `dragging`, `lockWave`), the
  derived `start`, and the operations `zoom`, `update`, `mousedown`,
  `mousemove`, `mouseup`, plus the render helpers `getData` and the
  time-ruler multiplier of `renderScale`.

Modelling conventions:

* JavaScript numbers are modelled as exact rationals (`ℚ`); every
  operation the claims touch is copying, comparison, or small-magnitude
  arithmetic, where double rounding plays no role.
* Audio samples are opaque rationals; the code only copies them.
* Fallible operations return `Option`: `none` models a thrown exception.
-/

set_option maxHeartbeats 1000000
set_option maxRecDepth 100000

/-- The clamp helper of WaveViewer.vue line 36:
`clamp = (x, minX, maxX) => max(minX, min(maxX, x))`. -/
def clamp (x minX maxX : ℚ) : ℚ := max minX (min maxX x)

/-- State of `AudioRecorder` (AudioRecorder.js lines 14-21): the list of
recorded chunks `this.buffers` and the lazily materialized flat clip
`this.clip` (`null` modelled as `none`).  The WebAudio plumbing fields
(`acx`, `input`, `processor`, `recording`) carry no sample data and are
omitted; `recording` is passed explicitly where the code reads it. -/
structure AudioRecorder where
  buffers : List (List ℚ)
  clip : Option (List ℚ)
deriving DecidableEq

/-- The `onaudioprocess` callback body (AudioRecorder.js lines 49-59):
`this.buffers.push(buffer)`.  Note that `this.clip` is not touched. -/
def AudioRecorder.push (r : AudioRecorder) (chunk : List ℚ) : AudioRecorder :=
  { r with buffers := r.buffers ++ [chunk] }

/-- AudioRecorder.js lines 67-70: `clear` sets `this.clip = null` and
`this.buffers = []`. -/
def AudioRecorder.clear (r : AudioRecorder) : AudioRecorder :=
  { buffers := [], clip := none }

/-- Derived value: total number of stored samples, the sum of the chunk
lengths (the spec name `totalLength`; the code has no such field). -/
def AudioRecorder.totalLen (r : AudioRecorder) : ℕ :=
  (r.buffers.map List.length).sum

/-- Overwrite `dst` with `src` starting at index `pos`, truncating the copy
at the end of `dst`: the semantics of WebAudio
`AudioBuffer.copyToChannel(src, 0, pos)`, which copies
`min(src.length, dst.length - pos)` samples. -/
def writeAt (dst : List ℚ) (pos : ℕ) (src : List ℚ) : List ℚ :=
  dst.take pos ++ src.take (dst.length - pos) ++ dst.drop (pos + src.length)

/-- The copy loop of `createClip` (AudioRecorder.js lines 104-108):
`for (i) clip.copyToChannel(buffers[i], 0, i * bufLen)`.  The loop index
is replaced by the running write position `pos = i * bufLen`, which
advances by `bufLen` per chunk. -/
def copyAll (bufLen : ℕ) (acc : List ℚ) (pos : ℕ) : List (List ℚ) → List ℚ
  | [] => acc
  | c :: rest => copyAll bufLen (writeAt acc pos c) (pos + bufLen) rest

/-- AudioRecorder.js lines 96-109, `createClip`.  Early return when
`buffers` is empty (the clip stays as it was).  Otherwise
`bufLen = buffers[0].length`, `length = buffers.length * bufLen`;
`acx.createBuffer(1, length, rate)` yields a zero-filled buffer and throws
(`none`) for a zero frame count, which happens exactly when `bufLen = 0`;
then every chunk is copied in at position `i * bufLen`. -/
def AudioRecorder.createClip (r : AudioRecorder) : Option AudioRecorder :=
  if r.buffers.isEmpty then some r
  else
    let bufLen := (r.buffers.headD []).length
    let len := r.buffers.length * bufLen
    if len = 0 then none
    else some { r with clip := some (copyAll bufLen (List.replicate len (0 : ℚ)) 0 r.buffers) }

/-- JavaScript `TypedArray.prototype.slice(a, b)`: negative indices count
from the end, both ends are clamped to `[0, length]`, and the result is
empty when the resolved end is not past the resolved start. -/
def jsSlice (l : List ℚ) (a b : ℤ) : List ℚ :=
  let len : ℤ := l.length
  let rs : ℤ := if a < 0 then max (len + a) 0 else min a len
  let re : ℤ := if b < 0 then max (len + b) 0 else min b len
  (l.drop rs.toNat).take (re - rs).toNat

/-- AudioRecorder.js lines 119-130, `getBuffer(start, end)`.
`if (!this.clip) this.createClip()` — a failed materialization or a still
`null` clip makes the following `this.clip.length` / `getChannelData`
dereference throw (`none`).  `start = start || 0` is the identity on
integer arguments; `end = end || this.clip.length` replaces a zero (or
omitted) `end` by the clip length.  The result buffer is created by
`acx.createBuffer(1, end - start, rate)`, which throws for a frame count
of zero (and for a negative one, which the WebIDL unsigned-long
conversion wraps to an unsupported astronomic size); otherwise it is
zero-filled and the slice is copied to its front.  The possibly updated
recorder (clip now cached) is returned alongside the buffer. -/
def AudioRecorder.getBuffer (r : AudioRecorder) (a b : ℤ) : Option (AudioRecorder × List ℚ) :=
  match (if r.clip.isNone then r.createClip else some r) with
  | none => none
  | some r1 =>
    match r1.clip with
    | none => none
    | some clip =>
      let b1 : ℤ := if b = 0 then (clip.length : ℤ) else b
      let data := jsSlice clip a b1
      let n : ℤ := b1 - a
      if n ≤ 0 then none
      else some (r1, writeAt (List.replicate n.toNat (0 : ℚ)) 0 data)

/-- Canvas width (WaveViewer.vue line 9: `width=512`). -/
def cvWidth : ℚ := 512

/-- State of the WaveViewer component (WaveViewer.vue lines 41-53 plus the
non-reactive `this.dragging`).  `end` is a reserved word in Lean and is
named `endIdx`; `selection.start` and `selection.end` are flattened to
`selStart` and `selEnd`.  The canvas handles (`cv`, `ctx`) and
`timeSliderValue` play no part in the claims and are omitted. -/
structure WaveViewer where
  scale : ℚ
  endIdx : ℚ
  bufLen : ℚ
  selStart : ℚ
  selEnd : ℚ
  dragging : Bool
  lockWave : Bool
deriving DecidableEq

/-- The computed property `start` (WaveViewer.vue lines 62-65):
`max(0, end - ceil(cv.width / scale) - 1)`. -/
def WaveViewer.start (v : WaveViewer) : ℚ :=
  max 0 (v.endIdx - ((⌈cvWidth / v.scale⌉ : ℤ) : ℚ) - 1)

/-- WaveViewer.vue lines 182-192, `zoom(delta)`.  The method destructures
`{ cv, bufLen, start, end, scale }` first, so `start`, `end` and `scale`
below are the pre-call values; `this.scale` is then assigned the clamped
new scale, so the later `this.start` read uses the new scale with the old
`end`, while `minEnd` divides by the destructured old `scale`.
`this.recorder.recording` is passed as the `recording` argument.  Wheel
deltas are modelled as integers so that `pow(1.01, delta)` is rational. -/
def WaveViewer.zoom (recording : Bool) (v : WaveViewer) (delta : ℤ) : WaveViewer :=
  let scaleNew := clamp (v.scale * (101 / 100 : ℚ) ^ delta) (1 / 256) 16
  if recording then { v with scale := scaleNew }
  else
    let diff := WaveViewer.start { v with scale := scaleNew } - v.start
    let minEnd := min (cvWidth / v.scale) v.bufLen
    { v with
      scale := scaleNew
      endIdx := clamp ((⌊v.endIdx - diff / 2⌋ : ℤ) : ℚ) minEnd v.bufLen }

/-- WaveViewer.vue lines 221-241, `update(buffers)`.  A `null` or empty
`buffers` argument (the store was cleared) takes the reset branch; both
are modelled by the empty list.  Otherwise
`newBufLen = buffers.length * buffers[0].length` and the view snaps to
the new live edge iff `abs(end - bufLen) < 64 / scale` or the store
shrank (`bufLen > newBufLen`). -/
def WaveViewer.update (v : WaveViewer) (buffers : List (List ℚ)) : WaveViewer :=
  if buffers.isEmpty then
    { v with selStart := 0, selEnd := 0, bufLen := 0, endIdx := 0 }
  else
    let newBufLen : ℚ := (buffers.length : ℚ) * ((buffers.headD []).length : ℚ)
    let v1 := if |v.endIdx - v.bufLen| < 64 / v.scale ∨ v.bufLen > newBufLen then
        { v with endIdx := newBufLen }
      else v
    { v1 with bufLen := newBufLen }

/-- WaveViewer.vue lines 112-118, `mousedown(e)`: begin a drag at sample
index `i = this.start + e.offsetX / this.scale` (the screen-to-sample
mapping is applied by the caller here, as the claims speak in sample
indices). -/
def WaveViewer.mousedown (v : WaveViewer) (i : ℚ) : WaveViewer :=
  { v with dragging := true, selStart := i, selEnd := i }

/-- WaveViewer.vue lines 128-139, `mousemove(e)`: ignored unless a drag is
active; otherwise with `i = this.start + e.offsetX / this.scale`, if
`i > selection.start` move `selection.end`, else move `selection.start`. -/
def WaveViewer.mousemove (v : WaveViewer) (i : ℚ) : WaveViewer :=
  if !v.dragging then v
  else if i > v.selStart then { v with selEnd := i }
  else { v with selStart := i }

/-- WaveViewer.vue lines 149-152, `mouseup()`: end the drag and emit the
current selection (returned as the second component). -/
def WaveViewer.mouseup (v : WaveViewer) : WaveViewer × (ℚ × ℚ) :=
  ({ v with dragging := false }, (v.selStart, v.selEnd))

/-- The render helper `getData` (WaveViewer.vue lines 260-264):
`buf = floor(i / buffers[0].length)`, `j = i % buffers[0].length`,
`buffers[buf] ? buffers[buf][j] : 0`.  `Int.fdiv` is the JS
`Math.floor` division for a positive divisor; a negative `buf` indexes
`undefined`, giving 0.  For a zero divisor JS produces an infinite or NaN
`buf`, indexing `undefined`, hence 0; the model then has `buf = 0` and
`buffers[0] = []` (the only way the divisor is 0), and the lookup in the
empty chunk gives the same 0.  When the chunk exists but `j` is out of
its bounds (possible only with non-uniformly sized chunks) JS yields
`undefined` where the model yields 0; all theorems below assume uniform
chunk lengths, where that branch is unreachable. -/
def WaveViewer.getData (buffers : List (List ℚ)) (i : ℤ) : ℚ :=
  let len0 : ℤ := ((buffers.headD []).length : ℤ)
  let buf : ℤ := Int.fdiv i len0
  let j : ℤ := Int.emod i len0
  if 0 ≤ buf then
    match buffers.get? buf.toNat with
    | some c => (c.get? j.toNat).getD 0
    | none => 0
  else 0

lemma exists_ruler_bound (pps : ℚ) : ∃ k : ℕ, pps ≤ 256 * 10 ^ k := by
  obtain ⟨n, hn⟩ := exists_nat_gt pps
  refine ⟨n, hn.le.trans ?_⟩
  have h1 : (n : ℚ) ≤ 10 ^ n := by
    calc (n : ℚ) ≤ ((10 ^ n : ℕ) : ℚ) := by
          exact_mod_cast (Nat.lt_pow_self (by norm_num) n).le
    _ = 10 ^ n := by push_cast; ring
  have h2 : (10 : ℚ) ^ n ≤ 256 * 10 ^ n := by
    nlinarith [pow_pos (show (0 : ℚ) < 10 by norm_num) n]
  linarith

/-- Number of times the `renderScale` loop (WaveViewer.vue lines 344-345)
divides `mul` by 10: `mul = 1; while (pps * mul > cv.width / 2) mul /= 10`
stops at the first `k` with `pps / 10 ^ k ≤ 256`, i.e. the least `k` with
`pps ≤ 256 * 10 ^ k`.  (In JS the loop terminates for astronomic `pps`
only via float underflow of `mul`; for every representable audio setting
the mathematical least `k` is the value the loop computes.) -/
def rulerK (pps : ℚ) : ℕ := Nat.find (exists_ruler_bound pps)

/-- The multiplier `mul` computed by `renderScale` (before its unit
rescaling, which happens after `len` is taken): `10 ^ (-rulerK)`. -/
def renderScaleMul (pps : ℚ) : ℚ := 1 / 10 ^ rulerK pps

/-- The drawn ruler bar length (WaveViewer.vue line 347): `len = pps * mul`. -/
def renderScaleLen (pps : ℚ) : ℚ := pps * renderScaleMul pps

/-- Modelled from the spec (comparison definition for claim C8, not from
the source): the spec asks for the largest `mul` among all integer powers
of ten — positive powers included — with `pps * mul ≤ cv.width / 2`. -/
def IsSpecRulerMul (pps mul : ℚ) : Prop :=
  (∃ z : ℤ, mul = 10 ^ z) ∧ pps * mul ≤ 256 ∧ ∀ z : ℤ, pps * 10 ^ z ≤ 256 → 10 ^ z ≤ mul

/-- Modelled from the spec (comparison definition for claim C6, not from
the source): the new `end` the spec prescribes for `zoom`, identical to
the code except that `minEnd` is computed with the NEW scale. -/
def specZoomEnd (v : WaveViewer) (delta : ℤ) : ℚ :=
  let scaleNew := clamp (v.scale * (101 / 100 : ℚ) ^ delta) (1 / 256) 16
  let diff := WaveViewer.start { v with scale := scaleNew } - v.start
  let minEnd := min (cvWidth / scaleNew) v.bufLen
  clamp ((⌊v.endIdx - diff / 2⌋ : ℤ) : ℚ) minEnd v.bufLen

/-! ### Supporting lemmas about `writeAt`, `copyAll` and `jsSlice` -/

lemma writeAt_length (dst src : List ℚ) (pos : ℕ) (h : pos ≤ dst.length) :
    (writeAt dst pos src).length = dst.length := by
  simp only [writeAt, List.length_append, List.length_take, List.length_drop]
  omega

lemma writeAt_zero_eq (dst src : List ℚ) (h : src.length = dst.length) :
    writeAt dst 0 src = src := by
  simp only [writeAt, List.take_zero, Nat.zero_add, List.nil_append, Nat.sub_zero]
  rw [← h, List.take_length, List.drop_of_length_le (by omega), List.append_nil]

lemma sum_length_uniform (bufs : List (List ℚ)) (L : ℕ)
    (hu : ∀ c ∈ bufs, c.length = L) : (bufs.map List.length).sum = bufs.length * L := by
  induction bufs with
  | nil => simp
  | cons c rest ih =>
    simp only [List.map_cons, List.sum_cons, List.length_cons]
    rw [hu c (by simp), ih fun x hx => hu x (by simp [hx])]
    ring

lemma copyAll_eq_join (L : ℕ) (bufs : List (List ℚ)) :
    ∀ (acc : List ℚ) (pos : ℕ), (∀ c ∈ bufs, c.length = L) →
      acc.length = pos + bufs.length * L →
      copyAll L acc pos bufs = acc.take pos ++ bufs.flatten := by
  induction bufs with
  | nil =>
    intro acc pos _ hlen
    simp only [List.length_nil, Nat.zero_mul, Nat.add_zero] at hlen
    simp only [copyAll, List.flatten_nil, List.append_nil]
    rw [List.take_of_length_le (by omega)]
  | cons c rest ih =>
    intro acc pos hu hlen
    have hc : c.length = L := hu c (by simp)
    simp only [List.length_cons, Nat.succ_mul] at hlen
    have hpos : pos + L ≤ acc.length := by omega
    have hw : writeAt acc pos c = acc.take pos ++ c ++ acc.drop (pos + L) := by
      simp only [writeAt, hc]
      rw [List.take_of_length_le (le_trans (le_of_eq hc) (by omega))]
    have hlen1 : (writeAt acc pos c).length = acc.length :=
      writeAt_length acc c pos (by omega)
    show copyAll L (writeAt acc pos c) (pos + L) rest = acc.take pos ++ (c :: rest).flatten
    rw [ih (writeAt acc pos c) (pos + L) (fun x hx => hu x (by simp [hx]))
      (by rw [hlen1]; omega)]
    rw [hw, List.flatten_cons]
    have hlen2 : (acc.take pos ++ c).length = pos + L := by
      simp only [List.length_append, List.length_take, hc]; omega
    rw [List.take_left' hlen2, List.append_assoc]

lemma flatten_length_uniform (bufs : List (List ℚ)) (L : ℕ)
    (hu : ∀ c ∈ bufs, c.length = L) : bufs.flatten.length = bufs.length * L := by
  rw [List.length_flatten, sum_length_uniform bufs L hu]

lemma createClip_uniform (bufs : List (List ℚ)) (L : ℕ) (cl : Option (List ℚ))
    (hne : bufs ≠ []) (hu : ∀ c ∈ bufs, c.length = L) (hL : 0 < L) :
    AudioRecorder.createClip ⟨bufs, cl⟩ = some ⟨bufs, some bufs.flatten⟩ := by
  obtain ⟨c, t, rfl⟩ := List.exists_cons_of_ne_nil hne
  have hc : c.length = L := hu c (by simp)
  have hlen : (c :: t).length * L ≠ 0 := by
    simp only [List.length_cons]
    exact Nat.mul_ne_zero (by omega) (by omega)
  simp only [AudioRecorder.createClip, List.isEmpty_cons, List.headD_cons, hc]
  rw [if_neg (by simp), if_neg hlen]
  rw [copyAll_eq_join L (c :: t) (List.replicate ((c :: t).length * L) 0) 0 hu
    (by simp [List.length_replicate])]
  simp

lemma jsSlice_of_range (l : List ℚ) (a b : ℤ) (ha : 0 ≤ a) (hb : 0 ≤ b)
    (hal : a ≤ (l.length : ℤ)) (hbl : b ≤ (l.length : ℤ)) :
    jsSlice l a b = (l.drop a.toNat).take (b - a).toNat := by
  simp only [jsSlice]
  rw [if_neg (not_lt.mpr ha), if_neg (not_lt.mpr hb), min_eq_left hal, min_eq_left hbl]

lemma getBuffer_uniform (bufs : List (List ℚ)) (L : ℕ) (a b : ℤ)
    (hne : bufs ≠ []) (hu : ∀ c ∈ bufs, c.length = L) (hL : 0 < L)
    (ha : 0 ≤ a) (hab : a < b) (hb : b ≤ ((bufs.length * L : ℕ) : ℤ)) :
    AudioRecorder.getBuffer ⟨bufs, none⟩ a b =
      some (⟨bufs, some bufs.flatten⟩, (bufs.flatten.drop a.toNat).take (b - a).toNat) := by
  have hjoin : bufs.flatten.length = bufs.length * L := flatten_length_uniform bufs L hu
  have hb0 : b ≠ 0 := by omega
  have hcc : AudioRecorder.createClip ⟨bufs, none⟩ = some ⟨bufs, some bufs.flatten⟩ :=
    createClip_uniform bufs L none hne hu hL
  simp only [AudioRecorder.getBuffer, Option.isNone_none, if_true, hcc, if_neg hb0]
  rw [jsSlice_of_range bufs.flatten a b ha (by omega) (by omega) (by omega)]
  have hdata : ((bufs.flatten.drop a.toNat).take (b - a).toNat).length = (b - a).toNat := by
    simp only [List.length_take, List.length_drop]
    omega
  rw [if_neg (by omega : ¬(b - a ≤ 0))]
  rw [writeAt_zero_eq _ _ (by simp [hdata, List.length_replicate])]

/-! ### Claim theorems for the sample store -/

/-- C1: the claim says appending a chunk invalidates the cached Clip in the
same call.  The code does not: `onaudioprocess` only pushes onto
`buffers`, so a materialized clip survives an append and a subsequent
`getBuffer` reads the stale clip, omitting the appended chunk.  Evaluated
at the failing input: store `[[1, 1]]` with clip `[1, 1]` materialized,
then chunk `[2, 2]` appended — the clip is unchanged, the full-range read
returns `[1, 1]` (a fresh store would give `[1, 1, 2, 2]`), while
`clear()` does discard the clip. -/
theorem C1_append_keeps_stale_clip :
    (AudioRecorder.push ⟨[[1, 1]], some [1, 1]⟩ [2, 2]).clip = some [1, 1] ∧
    AudioRecorder.getBuffer (AudioRecorder.push ⟨[[1, 1]], some [1, 1]⟩ [2, 2]) 0 0 =
      some (⟨[[1, 1], [2, 2]], some [1, 1]⟩, [1, 1]) ∧
    AudioRecorder.getBuffer ⟨[[1, 1], [2, 2]], none⟩ 0 0 =
      some (⟨[[1, 1], [2, 2]], some [1, 1, 2, 2]⟩, [1, 1, 2, 2]) ∧
    (AudioRecorder.clear ⟨[[1, 1], [2, 2]], some [1, 1]⟩).clip = none := by
  exact ⟨rfl, by decide, by decide, rfl⟩

/-- C2 counterexample: `getBuffer` is not total and does not clamp.  On an
empty store it throws (`none`), because `createClip` returns without
materializing and `this.clip` stays `null`; and on the store `[[5]]`
(totalLength 1) the request `getBuffer(0, 3)` returns a zero-padded
buffer of length `3 = end - start`, not of the claimed clamped length
`clamp(3,0,1) - clamp(0,0,1) = 1`. -/
theorem C2_counterexample :
    AudioRecorder.getBuffer ⟨[], none⟩ 0 0 = none ∧
    AudioRecorder.getBuffer ⟨[[5]], none⟩ 0 3 = some (⟨[[5]], some [5]⟩, [5, 0, 0]) ∧
    ([5, 0, 0] : List ℚ).length ≠ ((max 0 (min 3 1) : ℤ) - max 0 (min 0 1)).toNat := by
  exact ⟨rfl, by decide, by decide⟩

/-- C2 (amended): on an empty store `getBuffer` throws.  On a fresh,
nonempty store of uniform chunk length `L > 0`, with integer arguments
`a`, `b` and `b1` the defaulted end (`b = 0` is replaced by the clip
length `buffers.length * L`), `getBuffer(a, b)` throws when
`b1 - a ≤ 0` and otherwise returns a buffer of exactly `b1 - a` samples —
the raw difference, with no clamping of either argument against the
stored length. -/
theorem C2_amended (bufs : List (List ℚ)) (L : ℕ) (a b : ℤ)
    (hne : bufs ≠ []) (hu : ∀ c ∈ bufs, c.length = L) (hL : 0 < L) :
    AudioRecorder.getBuffer ⟨[], none⟩ a b = none ∧
    ((if b = 0 then ((bufs.length * L : ℕ) : ℤ) else b) - a ≤ 0 →
      AudioRecorder.getBuffer ⟨bufs, none⟩ a b = none) ∧
    (0 < (if b = 0 then ((bufs.length * L : ℕ) : ℤ) else b) - a →
      ∃ out, AudioRecorder.getBuffer ⟨bufs, none⟩ a b = some out ∧
        out.2.length = ((if b = 0 then ((bufs.length * L : ℕ) : ℤ) else b) - a).toNat) := by
  have hcc : AudioRecorder.createClip ⟨bufs, none⟩ = some ⟨bufs, some bufs.flatten⟩ :=
    createClip_uniform bufs L none hne hu hL
  have hjoin : bufs.flatten.length = bufs.length * L := flatten_length_uniform bufs L hu
  refine ⟨rfl, ?_, ?_⟩
  · intro hle
    simp only [AudioRecorder.getBuffer, Option.isNone_none, if_true, hcc, hjoin]
    rw [if_pos (by exact_mod_cast hle)]
  · intro hlt
    simp only [AudioRecorder.getBuffer, Option.isNone_none, if_true, hcc, hjoin]
    rw [if_neg (by exact_mod_cast not_le.mpr hlt)]
    refine ⟨_, rfl, ?_⟩
    rw [writeAt_length _ _ _ (Nat.zero_le _), List.length_replicate]

/-- Witness for C2 (amended): concrete instance — store `[[1, 2]]`, request
`getBuffer(0, 3)` succeeds with a buffer of `3` samples. -/
theorem C2_witness :
    ∃ out, AudioRecorder.getBuffer ⟨[[1, 2]], none⟩ 0 3 = some out ∧
      out.2.length = (((3 : ℤ)) - 0).toNat := by
  have h := (C2_amended [[1, 2]] 2 0 3 (by decide) (by decide) (by norm_num)).2.2
  simpa using h (by norm_num)

/-- C3 counterexample: after chunks were appended, a clip materialized and
the store cleared, a subsequent `getRange` throws (the clip is `null` and
an empty store cannot rematerialize it) instead of returning an empty
buffer. -/
theorem C3_counterexample :
    AudioRecorder.getBuffer (AudioRecorder.clear ⟨[[1], [2]], some [1, 2]⟩) 0 0 = none := rfl

/-- C3 (amended): after `clear()` the total length is 0 and `clear` is
idempotent, but any subsequent `getRange`/`getBuffer` call throws
(`none`) rather than returning an empty buffer. -/
theorem C3_amended (r : AudioRecorder) (a b : ℤ) :
    (r.clear).totalLen = 0 ∧ r.clear.clear = r.clear ∧ r.clear.getBuffer a b = none :=
  ⟨rfl, rfl, rfl⟩

/-- C4: for a nonempty sequence of appended chunks of uniform length
`L > 0`, the total length is `count * L` (the sum of the chunk lengths);
the viewer `update` records exactly that total as `bufLen`;
`getRange(0, totalLength)` reproduces the in-order concatenation of the
chunks; and every in-range sub-request `[a, b)` returns exactly the
`b - a` consecutive samples of the concatenation starting at `a`,
boundary-straddling requests included. -/
theorem C4_concat (bufs : List (List ℚ)) (L : ℕ)
    (hne : bufs ≠ []) (hu : ∀ c ∈ bufs, c.length = L) (hL : 0 < L) :
    AudioRecorder.totalLen ⟨bufs, none⟩ = bufs.length * L ∧
    (∀ v : WaveViewer, (v.update bufs).bufLen = ((AudioRecorder.totalLen ⟨bufs, none⟩ : ℕ) : ℚ)) ∧
    AudioRecorder.getBuffer ⟨bufs, none⟩ 0 ((bufs.length * L : ℕ) : ℤ) =
      some (⟨bufs, some bufs.flatten⟩, bufs.flatten) ∧
    (∀ a b : ℤ, 0 ≤ a → a < b → b ≤ ((bufs.length * L : ℕ) : ℤ) →
      AudioRecorder.getBuffer ⟨bufs, none⟩ a b =
        some (⟨bufs, some bufs.flatten⟩, (bufs.flatten.drop a.toNat).take (b - a).toNat) ∧
      ((bufs.flatten.drop a.toNat).take (b - a).toNat).length = (b - a).toNat) := by
  have htot : AudioRecorder.totalLen ⟨bufs, none⟩ = bufs.length * L := by
    simp only [AudioRecorder.totalLen]
    exact sum_length_uniform bufs L hu
  have hjoin : bufs.flatten.length = bufs.length * L := flatten_length_uniform bufs L hu
  have hpos : 0 < bufs.length * L :=
    Nat.mul_pos (List.length_pos.mpr hne) hL
  refine ⟨htot, ?_, ?_, ?_⟩
  · intro v
    obtain ⟨c, t, rfl⟩ := List.exists_cons_of_ne_nil hne
    have hc : c.length = L := hu c (by simp)
    simp only [WaveViewer.update, List.isEmpty_cons, Bool.false_eq_true, if_false,
      List.headD_cons, hc, htot]
    push_cast
    ring
  · have h := getBuffer_uniform bufs L 0 ((bufs.length * L : ℕ) : ℤ) hne hu hL le_rfl
      (by exact_mod_cast hpos) le_rfl
    have h3 : List.take ((((bufs.length * L : ℕ) : ℤ) - 0).toNat)
        (List.drop (Int.toNat 0) bufs.flatten) = bufs.flatten := by
      rw [Int.sub_zero, Int.toNat_natCast, Int.toNat_zero, List.drop_zero, ← hjoin,
        List.take_length]
    rw [h, h3]
  · intro a b ha hab hb
    refine ⟨getBuffer_uniform bufs L a b hne hu hL ha hab hb, ?_⟩
    simp only [List.length_take, List.length_drop, hjoin]
    omega

/-- Witness for C4: the spec scenario — three chunks of length 128
(totalLength 384); `getRange(64, 192)` returns the 128 samples straddling
the boundary between chunk 0 and chunk 1. -/
theorem C4_witness :
    AudioRecorder.getBuffer
        ⟨[List.replicate 128 (1 : ℚ), List.replicate 128 2, List.replicate 128 3], none⟩ 64 192 =
      some (⟨[List.replicate 128 (1 : ℚ), List.replicate 128 2, List.replicate 128 3],
              some ([List.replicate 128 (1 : ℚ), List.replicate 128 2,
                List.replicate 128 3].flatten)⟩,
            (([List.replicate 128 (1 : ℚ), List.replicate 128 2,
              List.replicate 128 3].flatten.drop (64 : ℤ).toNat).take ((192 : ℤ) - 64).toNat)) ∧
    (([List.replicate 128 (1 : ℚ), List.replicate 128 2,
        List.replicate 128 3].flatten.drop (64 : ℤ).toNat).take ((192 : ℤ) - 64).toNat).length =
      ((192 : ℤ) - 64).toNat := by
  exact (C4_concat [List.replicate 128 (1 : ℚ), List.replicate 128 2, List.replicate 128 3] 128
    (by simp) (by simp) (by norm_num)).2.2.2 64 192 (by norm_num) (by norm_num) (by norm_num)

/-! ### Claim theorems for the viewer -/

/-- C5 counterexample: from `beginDrag(500)`, `updateDrag(800)`,
`endDrag()` the emitted selection is `(500, 800)` as claimed, but a
further `updateDrag(100)` does not produce `(100, 500)`: after `endDrag`
the drag flag is down, so the move is ignored and the selection stays
`(500, 800)`; and even a crossing `updateDrag(100)` made before `endDrag`
moves `start` only, giving `(100, 800)` — the roles of start and end
never invert around the anchor. -/
theorem C5_counterexample :
    (WaveViewer.mouseup (WaveViewer.mousemove
        (WaveViewer.mousedown ⟨1, 0, 384, 0, 0, false, true⟩ 500) 800)).2 = (500, 800) ∧
    ((WaveViewer.mousemove (WaveViewer.mouseup (WaveViewer.mousemove
        (WaveViewer.mousedown ⟨1, 0, 384, 0, 0, false, true⟩ 500) 800)).1 100).selStart,
      (WaveViewer.mousemove (WaveViewer.mouseup (WaveViewer.mousemove
        (WaveViewer.mousedown ⟨1, 0, 384, 0, 0, false, true⟩ 500) 800)).1 100).selEnd) =
      ((500 : ℚ), (800 : ℚ)) ∧
    ((WaveViewer.mousemove (WaveViewer.mousemove
        (WaveViewer.mousedown ⟨1, 0, 384, 0, 0, false, true⟩ 500) 800) 100).selStart,
      (WaveViewer.mousemove (WaveViewer.mousemove
        (WaveViewer.mousedown ⟨1, 0, 384, 0, 0, false, true⟩ 500) 800) 100).selEnd) =
      ((100 : ℚ), (800 : ℚ)) ∧
    ((500 : ℚ), (800 : ℚ)) ≠ ((100 : ℚ), (500 : ℚ)) ∧
    ((100 : ℚ), (800 : ℚ)) ≠ ((100 : ℚ), (500 : ℚ)) := by
  refine ⟨rfl, by decide, by decide, by decide, by decide⟩

/-- C5 (amended): `beginDrag(500)`, `updateDrag(800)`, `endDrag()` emits
`{start: 500, end: 800}`.  A further `updateDrag(100)` after `endDrag` is
ignored (the drag has ended), leaving the selection at `(500, 800)`; had
the crossing `updateDrag(100)` happened during the drag, the selection
would become `{start: 100, end: 800}` — `start` moves while `end` keeps
its dragged value; the anchor does not become the selection end. -/
theorem C5_amended :
    (WaveViewer.mouseup (WaveViewer.mousemove
        (WaveViewer.mousedown ⟨1, 0, 384, 0, 0, false, true⟩ 500) 800)).2 = (500, 800) ∧
    WaveViewer.mousemove (WaveViewer.mouseup (WaveViewer.mousemove
        (WaveViewer.mousedown ⟨1, 0, 384, 0, 0, false, true⟩ 500) 800)).1 100 =
      (WaveViewer.mouseup (WaveViewer.mousemove
        (WaveViewer.mousedown ⟨1, 0, 384, 0, 0, false, true⟩ 500) 800)).1 ∧
    WaveViewer.mousemove (WaveViewer.mousemove
        (WaveViewer.mousedown ⟨1, 0, 384, 0, 0, false, true⟩ 500) 800) 100 =
      ⟨1, 0, 384, 100, 800, true, true⟩ := by
  refine ⟨rfl, by decide, by decide⟩

/-- C6 counterexample: the code computes `minEnd` from the OLD scale, not
the new one as claimed.  At state `scale = 1`, `end = 400`,
`bufLen = 100000`, not recording, `zoom(1)` yields `end = 512`
(`minEnd = min(512/1, 100000)`), while the claimed formula with
`minEnd = min(512/scale', 100000) = 51200/101` would yield
`end = 51200/101 ≈ 506.93`. -/
theorem C6_counterexample :
    (WaveViewer.zoom false ⟨1, 400, 100000, 0, 0, false, true⟩ 1).endIdx = 512 ∧
    specZoomEnd ⟨1, 400, 100000, 0, 0, false, true⟩ 1 = 51200 / 101 ∧
    (WaveViewer.zoom false ⟨1, 400, 100000, 0, 0, false, true⟩ 1).endIdx ≠
      specZoomEnd ⟨1, 400, 100000, 0, 0, false, true⟩ 1 := by
  have hc : (⌈(51200 / 101 : ℚ)⌉ : ℤ) = 507 := by rw [Int.ceil_eq_iff]; norm_num
  have h1 : (WaveViewer.zoom false ⟨1, 400, 100000, 0, 0, false, true⟩ 1).endIdx = 512 := by
    norm_num [WaveViewer.zoom, WaveViewer.start, clamp, cvWidth, hc]
  have h2 : specZoomEnd ⟨1, 400, 100000, 0, 0, false, true⟩ 1 = 51200 / 101 := by
    norm_num [specZoomEnd, WaveViewer.start, clamp, cvWidth, hc]
  exact ⟨h1, h2, by rw [h1, h2]; norm_num⟩

lemma clamp_mem (x lo hi : ℚ) (h : lo ≤ hi) : lo ≤ clamp x lo hi ∧ clamp x lo hi ≤ hi :=
  ⟨le_max_left _ _, max_le h (min_le_left _ _)⟩

lemma start_nonneg (v : WaveViewer) : 0 ≤ v.start := le_max_left _ _

lemma start_le_endIdx (v : WaveViewer) (hs : 0 < v.scale) (he : 0 ≤ v.endIdx) :
    v.start ≤ v.endIdx := by
  have hceil : (1 : ℤ) ≤ ⌈cvWidth / v.scale⌉ := by
    have : (0 : ℚ) < cvWidth / v.scale := div_pos (by norm_num [cvWidth]) hs
    exact Int.ceil_pos.mpr this
  have hceilQ : (1 : ℚ) ≤ ((⌈cvWidth / v.scale⌉ : ℤ) : ℚ) := by exact_mod_cast hceil
  rw [WaveViewer.start]
  apply max_le he
  linarith

/-- C6 (amended): `zoom(delta)` clamps the new scale to
`[1/256, 16]` exactly as claimed, and (when not recording) sets
`end = clamp(floor(end - (start_at_new_scale - start_old)/2), minEnd,
totalLength)` — but with `minEnd = min(viewportWidthPixels/scale,
totalLength)` computed from the OLD scale, not the new one.  Afterwards
`1/256 ≤ scale ≤ 16` and `0 ≤ derived start ≤ end ≤ totalLength` hold
(given a positive old scale and a previously in-range `end`). -/
theorem C6_amended (v : WaveViewer) (delta : ℤ) (recording : Bool)
    (hscale : 0 < v.scale) (h0 : 0 ≤ v.endIdx) (h1 : v.endIdx ≤ v.bufLen) :
    (WaveViewer.zoom recording v delta).scale =
      clamp (v.scale * (101 / 100) ^ delta) (1 / 256) 16 ∧
    (recording = false →
      (WaveViewer.zoom recording v delta).endIdx =
        clamp ((⌊v.endIdx -
            (WaveViewer.start
                { v with scale := clamp (v.scale * (101 / 100) ^ delta) (1 / 256) 16 } -
              v.start) / 2⌋ : ℤ) : ℚ)
          (min (cvWidth / v.scale) v.bufLen) v.bufLen) ∧
    1 / 256 ≤ (WaveViewer.zoom recording v delta).scale ∧
    (WaveViewer.zoom recording v delta).scale ≤ 16 ∧
    0 ≤ (WaveViewer.zoom recording v delta).start ∧
    (WaveViewer.zoom recording v delta).start ≤ (WaveViewer.zoom recording v delta).endIdx ∧
    (WaveViewer.zoom recording v delta).endIdx ≤ (WaveViewer.zoom recording v delta).bufLen := by
  have hsb := clamp_mem (v.scale * (101 / 100) ^ delta) (1 / 256) 16 (by norm_num)
  have hbuf0 : (0 : ℚ) ≤ v.bufLen := h0.trans h1
  cases recording with
  | true =>
    refine ⟨rfl, by simp, hsb.1, hsb.2, start_nonneg _, ?_, h1⟩
    exact start_le_endIdx _ (lt_of_lt_of_le (by norm_num) hsb.1) h0
  | false =>
    have hminEnd0 : (0 : ℚ) ≤ min (cvWidth / v.scale) v.bufLen :=
      le_min (div_pos (by norm_num [cvWidth]) hscale).le hbuf0
    have hminEndB : min (cvWidth / v.scale) v.bufLen ≤ v.bufLen := min_le_right _ _
    have heb := clamp_mem ((⌊v.endIdx -
        (WaveViewer.start
            { v with scale := clamp (v.scale * (101 / 100) ^ delta) (1 / 256) 16 } -
          v.start) / 2⌋ : ℤ) : ℚ) (min (cvWidth / v.scale) v.bufLen) v.bufLen hminEndB
    refine ⟨rfl, fun _ => rfl, hsb.1, hsb.2, start_nonneg _, ?_, heb.2⟩
    exact start_le_endIdx _ (lt_of_lt_of_le (by norm_num) hsb.1) (hminEnd0.trans heb.1)

/-- Witness for C6 (amended): the invariants instantiated at the state
`scale = 1`, `end = 400`, `bufLen = 100000` with `zoom(1)`. -/
theorem C6_witness :
    1 / 256 ≤ (WaveViewer.zoom false ⟨1, 400, 100000, 0, 0, false, true⟩ 1).scale ∧
    (WaveViewer.zoom false ⟨1, 400, 100000, 0, 0, false, true⟩ 1).scale ≤ 16 ∧
    0 ≤ (WaveViewer.zoom false ⟨1, 400, 100000, 0, 0, false, true⟩ 1).start ∧
    (WaveViewer.zoom false ⟨1, 400, 100000, 0, 0, false, true⟩ 1).start ≤
      (WaveViewer.zoom false ⟨1, 400, 100000, 0, 0, false, true⟩ 1).endIdx ∧
    (WaveViewer.zoom false ⟨1, 400, 100000, 0, 0, false, true⟩ 1).endIdx ≤
      (WaveViewer.zoom false ⟨1, 400, 100000, 0, 0, false, true⟩ 1).bufLen := by
  have h := C6_amended ⟨1, 400, 100000, 0, 0, false, true⟩ 1 false (by norm_num) (by norm_num)
    (by norm_num)
  exact ⟨h.2.2.1, h.2.2.2.1, h.2.2.2.2.1, h.2.2.2.2.2.1, h.2.2.2.2.2.2⟩

/-- C7 counterexample: with the previous total 1000, `end = 200` (user
scrolled back) and the zoomed-out scale `1/256`, appending a chunk of 50
(21 uniform chunks of 50) snaps `end` to `1050` — it does not stay at
200 as claimed, because the follow threshold is `64/scale = 16384`
samples (64 pixels), not one full visual frame. -/
theorem C7_counterexample :
    (WaveViewer.update ⟨1 / 256, 200, 1000, 0, 0, false, true⟩
        (List.replicate 21 (List.replicate 50 (0 : ℚ)))).endIdx = 1050 ∧
    (1050 : ℚ) ≠ 200 := by
  constructor
  · norm_num [WaveViewer.update, List.replicate_succ]
  · norm_num

/-- C7 (amended): on data growth the viewport follows the live edge iff
`abs(end - totalLength_old) < 64/scale` (64 pixels worth of samples —
one eighth of the 512-pixel frame, not a full frame) or the store
shrank.  With `end = 1000 = totalLength_old` the append of 50 snaps
`end` to 1050 at every positive scale; with `end = 200` it stays at 200
exactly when `64/scale ≤ 800`, and snaps to 1050 when `800 < 64/scale`. -/
theorem C7_amended (s : ℚ) (hs : 0 < s) :
    (WaveViewer.update ⟨s, 1000, 1000, 0, 0, false, true⟩
        (List.replicate 21 (List.replicate 50 (0 : ℚ)))).endIdx = 1050 ∧
    (64 / s ≤ 800 →
      (WaveViewer.update ⟨s, 200, 1000, 0, 0, false, true⟩
        (List.replicate 21 (List.replicate 50 (0 : ℚ)))).endIdx = 200) ∧
    (800 < 64 / s →
      (WaveViewer.update ⟨s, 200, 1000, 0, 0, false, true⟩
        (List.replicate 21 (List.replicate 50 (0 : ℚ)))).endIdx = 1050) := by
  have h64 : (0 : ℚ) < 64 / s := by positivity
  refine ⟨?_, ?_, ?_⟩
  · norm_num [WaveViewer.update, List.replicate_succ, h64]
  · intro hle
    have h1 : ¬((800 : ℚ) < 64 / s) := not_lt.mpr hle
    norm_num [WaveViewer.update, List.replicate_succ, h1]
  · intro hgt
    norm_num [WaveViewer.update, List.replicate_succ, hgt]

/-- Witness for C7 (amended): at `scale = 1` the live-edge case snaps to
1050 and the scrolled-back case stays at 200 (`64/1 ≤ 800`). -/
theorem C7_witness :
    (WaveViewer.update ⟨1, 1000, 1000, 0, 0, false, true⟩
        (List.replicate 21 (List.replicate 50 (0 : ℚ)))).endIdx = 1050 ∧
    (WaveViewer.update ⟨1, 200, 1000, 0, 0, false, true⟩
        (List.replicate 21 (List.replicate 50 (0 : ℚ)))).endIdx = 200 :=
  ⟨(C7_amended 1 (by norm_num)).1, (C7_amended 1 (by norm_num)).2.1 (by norm_num)⟩

/-- C8 counterexample: at `pps = 10` (e.g. sample rate 2560 at scale
1/256) the loop leaves `mul = 1`, but the largest power of ten with
`pps * mul ≤ 256` is `10`: the code never chooses a multiplier above 1,
so it is not the largest over the full set of powers of ten. -/
theorem C8_counterexample :
    renderScaleMul 10 = 1 ∧ ¬ IsSpecRulerMul 10 (renderScaleMul 10) := by
  have hk : rulerK 10 = 0 := by
    rw [rulerK, Nat.find_eq_zero]
    norm_num
  have hm : renderScaleMul 10 = 1 := by rw [renderScaleMul, hk]; norm_num
  refine ⟨hm, ?_⟩
  rintro ⟨-, -, hmax⟩
  have h10 := hmax 1 (by norm_num)
  rw [hm] at h10
  norm_num at h10

/-- C8 (amended): the ruler multiplier is the largest power of ten NOT
EXCEEDING 1 that fits: `mul = 10^(-k) ≤ 1`, the drawn bar length
`pps * mul` fits in half the 512-pixel canvas, and any smaller-or-equal
power of ten `10^(-k)` that fits satisfies `10^(-k) ≤ mul`. -/
theorem C8_amended (pps : ℚ) (k : ℕ) :
    renderScaleMul pps ≤ 1 ∧
    renderScaleLen pps ≤ 256 ∧
    (pps ≤ 256 * 10 ^ k → 1 / 10 ^ k ≤ renderScaleMul pps) := by
  have hposk : ∀ n : ℕ, (0 : ℚ) < 10 ^ n := fun n => pow_pos (by norm_num) n
  refine ⟨?_, ?_, ?_⟩
  · rw [renderScaleMul, div_le_one (hposk _)]
    exact one_le_pow₀ (by norm_num)
  · rw [renderScaleLen, renderScaleMul]
    rcases le_or_lt pps 0 with hle | hpos
    · have hx : (0 : ℚ) ≤ 1 / 10 ^ rulerK pps := by positivity
      nlinarith
    · have hspec : pps ≤ 256 * 10 ^ rulerK pps := Nat.find_spec (exists_ruler_bound pps)
      rw [mul_one_div, div_le_iff (hposk _)]
      linarith
  · intro hk
    have hfind : rulerK pps ≤ k := Nat.find_le hk
    rw [renderScaleMul]
    exact one_div_le_one_div_of_le (hposk _) (pow_le_pow_right (by norm_num) hfind)

/-- Witness for C8 (amended): at `pps = 2560`, `10^(-2)` fits
(`2560/100 ≤ 256`), hence bounds the chosen multiplier, which is at
most 1. -/
theorem C8_witness : (1 : ℚ) / 10 ^ 2 ≤ renderScaleMul 2560 ∧ renderScaleMul 2560 ≤ 1 :=
  ⟨(C8_amended 2560 2).2.2 (by norm_num), (C8_amended 2560 2).1⟩

/-- C9: the render helper `getData` is total and returns amplitude 0 for
every index outside the stored data — negative (as produced by the
wave-lock shift) or at/past the total length — provided all chunks have
the length of the first chunk. -/
theorem C9_getData_total (buffers : List (List ℚ)) (L : ℕ) (i : ℤ)
    (hu : ∀ c ∈ buffers, c.length = L)
    (hout : i < 0 ∨ ((buffers.map List.length).sum : ℤ) ≤ i) :
    WaveViewer.getData buffers i = 0 := by
  rcases buffers with _ | ⟨c, t⟩
  · simp [WaveViewer.getData, Int.fdiv_zero]
  · have hc : c.length = L := hu c (by simp)
    have hsum : ((c :: t).map List.length).sum = (c :: t).length * L :=
      sum_length_uniform _ L hu
    rcases Nat.eq_zero_or_pos L with hL0 | hL
    · obtain rfl : c = [] := List.length_eq_zero.mp (by rw [hc, hL0])
      simp [WaveViewer.getData, Int.fdiv_zero]
    · rcases hout with hneg | hge
      · have hbuf : Int.fdiv i ((c :: t).headD []).length < 0 := by
          rw [List.headD_cons, hc, Int.fdiv_eq_ediv _ (by positivity)]
          exact Int.ediv_neg' hneg (by exact_mod_cast hL)
        simp only [WaveViewer.getData]
        rw [if_neg (not_le.mpr hbuf)]
      · have hgeL : (((c :: t).length * L : ℕ) : ℤ) ≤ i := by
          rw [hsum] at hge
          exact hge
        have hbuf : ((c :: t).length : ℤ) ≤ Int.fdiv i ((c :: t).headD []).length := by
          rw [List.headD_cons, hc, Int.fdiv_eq_ediv _ (by positivity),
            Int.le_ediv_iff_mul_le (by exact_mod_cast hL)]
          push_cast at hgeL ⊢
          linarith
        have hge0 : (0 : ℤ) ≤ Int.fdiv i ((c :: t).headD []).length :=
          le_trans (by positivity) hbuf
        have hnone : (c :: t).get? (Int.fdiv i ((c :: t).headD []).length).toNat = none := by
          rw [List.get?_eq_none]
          omega
        simp only [WaveViewer.getData]
        rw [if_pos hge0, hnone]

/-- Witness for C9: concrete out-of-range lookups on two chunks of two
samples (total length 4) return 0, both past the end and at a negative
index. -/
theorem C9_witness :
    WaveViewer.getData [[1, 2], [3, 4]] 4 = 0 ∧
    WaveViewer.getData [[1, 2], [3, 4]] (-1) = 0 :=
  ⟨C9_getData_total [[1, 2], [3, 4]] 2 4 (by decide) (Or.inr (by decide)),
   C9_getData_total [[1, 2], [3, 4]] 2 (-1) (by decide) (Or.inl (by decide))⟩

/-- C10: updating the viewer with an empty (or absent, modelled alike)
buffer list resets selection, total length and viewport end to 0 and
leaves every other piece of viewer state — scale, wave lock, drag flag —
unchanged. -/
theorem C10_reset (v : WaveViewer) :
    (v.update []).selStart = 0 ∧ (v.update []).selEnd = 0 ∧ (v.update []).bufLen = 0 ∧
    (v.update []).endIdx = 0 ∧ (v.update []).scale = v.scale ∧
    (v.update []).lockWave = v.lockWave ∧ (v.update []).dragging = v.dragging := by
  refine ⟨rfl, rfl, rfl, rfl, rfl, rfl, rfl⟩

